import Mathlib

/-!
# Verification of the binance-screener aggregation and screening logic

Shallow embedding of the two source variants:

* `app.py` — the polling variant: `fetch_1min_volume`, `calculate_average_volume`
  and the screening conditions in `screen_pairs`.
* `screener_app.py` — the streaming variant: `process_trade_data`,
  `fetch_5day_1min_avg_vol`, the per-trade filter and row replacement of the
  Start Screener loop, the minute-rollover history append
  (`concat` + `drop_duplicates` + `sort_values`), and `paginate`.

Python floats are modelled as rationals `ℚ`; timestamps in milliseconds as
integers.  HTTP responses are passed in as explicit data (the providers are
external collaborators).
-/

namespace Screener

/-- A trade print from the `aggTrades` endpoint as consumed by `app.py`:
field `p` is the price, `q` the quantity. -/
structure AggTrade where
  p : ℚ
  q : ℚ
deriving DecidableEq, Repr

/-- `INR_CONVERSION_RATE = 83.0` (app.py). -/
def INR_CONVERSION_RATE : ℚ := 83

/-- The window bounds used by `fetch_1min_volume` (app.py):
`end_time = int(time.time() * 1000)`, `start_time = end_time - 60_000`.
The argument is the query time in milliseconds. -/
def fetch_1min_window (now_ms : ℤ) : ℤ × ℤ := (now_ms - 60000, now_ms)

/-- The aggregation performed by `fetch_1min_volume` (app.py) over the trades
the API returned for the window: `volume = sum(float(t['q']) for t in res)` and
`value_inr = sum(float(t['p']) * float(t['q']) * INR_CONVERSION_RATE for t in res)`. -/
def fetch_1min_volume (trades : List AggTrade) : ℚ × ℚ :=
  ((trades.map (fun t => t.q)).sum,
   (trades.map (fun t => t.p * t.q * INR_CONVERSION_RATE)).sum)

/-- `calculate_average_volume` (app.py): the total volume of the fetched trades
divided by `days * 1440`. -/
def calculate_average_volume (trades : List AggTrade) (days : ℕ) : ℚ :=
  (trades.map (fun t => t.q)).sum / (days * 1440)

/-- The volume condition of `screen_pairs` (app.py):
`avg_vol > 0 and vol > vol_multiplier * avg_vol`. -/
def volume_condition (vol avg_vol vol_multiplier : ℚ) : Bool :=
  decide (avg_vol > 0 ∧ vol > vol_multiplier * avg_vol)

/-- The value condition of `screen_pairs` (app.py): `val > value_threshold`. -/
def value_condition (val value_threshold : ℚ) : Bool :=
  decide (val > value_threshold)

/-- A trade event from the websocket stream as read by `process_trade_data`
(screener_app.py): symbol `s`, quantity `q`, price `p`, trade time `T` (ms). -/
structure Trade where
  s : String
  q : ℚ
  p : ℚ
  T : ℤ
deriving DecidableEq, Repr

/-- A row of `df_current_min` / `filtered_current` / `filtered_history`
(screener_app.py): columns `symbol`, `volume`, `value_in_inr`, `timestamp`. -/
structure Row where
  symbol : String
  volume : ℚ
  value_in_inr : ℚ
  timestamp : ℤ
deriving DecidableEq, Repr

/-- `process_trade_data` (screener_app.py): `volume = qty`,
`value_in_usd = qty * price`, `value_in_inr = value_in_usd * inr_rate`,
`timestamp = trade['T']`. -/
def process_trade_data (trade : Trade) (inr_rate : ℚ) : Row :=
  { symbol := trade.s
    volume := trade.q
    value_in_inr := trade.q * trade.p * inr_rate
    timestamp := trade.T }

/-- `fetch_5day_1min_avg_vol` (screener_app.py), as a function of the kline
volumes the HTTP call produced: `none` models an error-code response or an
exception (the function returns `None` there); otherwise the code computes
`avg_vol = sum(volumes) / len(volumes) if volumes else 0`. -/
def fetch_5day_1min_avg_vol (response : Option (List ℚ)) : Option ℚ :=
  match response with
  | none => none
  | some volumes => some (if volumes.isEmpty then 0 else volumes.sum / volumes.length)

/-- Population of one entry of `avg_vol_dict` in the Start Screener setup
(screener_app.py): a `None` result from `fetch_5day_1min_avg_vol` is stored
as `0`. -/
def avg_vol_dict_entry (avg_vol : Option ℚ) : ℚ := avg_vol.getD 0

/-- The sidebar filter condition (screener_app.py): either volume-based with a
multiplier or value-based with a minimum 1-minute trade value in INR crore. -/
inductive Condition where
  | volumeBased (vol_multiplier : ℚ)
  | valueBased (min_value_inr : ℚ)
deriving DecidableEq, Repr

/-- `avg_vol_dict.get(sym, 0)` (screener_app.py): dictionary lookup with
default `0`, the dictionary modelled as an association list. -/
def dict_get (d : List (String × ℚ)) (sym : String) : ℚ :=
  (d.lookup sym).getD 0

/-- The per-trade filtering logic of the Start Screener loop
(screener_app.py): volume-based requires `avg_vol > 0 and
vol > vol_multiplier * avg_vol` with `avg_vol = avg_vol_dict.get(sym, 0)`;
value-based requires `val > min_value_inr * 1e7`. -/
def passes_filter (cond : Condition) (avg_vol_dict : List (String × ℚ))
    (info : Row) : Bool :=
  match cond with
  | .volumeBased vol_multiplier =>
      let avg_vol := dict_get avg_vol_dict info.symbol
      decide (avg_vol > 0 ∧ info.volume > vol_multiplier * avg_vol)
  | .valueBased min_value_inr =>
      decide (info.value_in_inr > min_value_inr * 10000000)

/-- The row replacement of the Start Screener loop (screener_app.py):
`df_current_min = df_current_min[df_current_min["symbol"] != sym]` followed by
`pd.concat([df_current_min, new_row], ignore_index=True)`. -/
def update_current_min (df : List Row) (new_row : Row) : List Row :=
  df.filter (fun r => decide (r.symbol ≠ new_row.symbol)) ++ [new_row]

/-- One trade message through the queue-drain body of the Start Screener loop:
process it, test the filter, and add-or-replace the row on success. -/
def step_trade (cond : Condition) (avg_vol_dict : List (String × ℚ))
    (inr_rate : ℚ) (df : List Row) (trade : Trade) : List Row :=
  let info := process_trade_data trade inr_rate
  if passes_filter cond avg_vol_dict info then update_current_min df info else df

/-- Draining a sequence of trade messages through the loop body, in arrival
order. -/
def process_trades (cond : Condition) (avg_vol_dict : List (String × ℚ))
    (inr_rate : ℚ) (df : List Row) (trades : List Trade) : List Row :=
  trades.foldl (step_trade cond avg_vol_dict inr_rate) df

/-- The deduplication key of `drop_duplicates(subset=["symbol", "timestamp"])`
(screener_app.py). -/
def row_key (r : Row) : String × ℤ := (r.symbol, r.timestamp)

/-- pandas `drop_duplicates(subset=["symbol", "timestamp"])` with the default
`keep="first"`: the first occurrence of each key is kept, later ones dropped. -/
def drop_duplicates : List Row → List Row
  | [] => []
  | r :: rs => r :: drop_duplicates (rs.filter (fun x => decide (row_key x ≠ row_key r)))
termination_by l => l.length
decreasing_by
  simpa using Nat.lt_succ_of_le (List.length_filter_le _ rs)

/-- `sort_values(by="timestamp", ascending=False)` (screener_app.py). -/
def sort_by_timestamp_desc (l : List Row) : List Row :=
  l.mergeSort (fun a b => decide (b.timestamp ≤ a.timestamp))

/-- The history update at rollover (screener_app.py):
`pd.concat([df_current_min, st.session_state.filtered_history]).drop_duplicates(
subset=["symbol", "timestamp"]).sort_values(by="timestamp", ascending=False)`. -/
def append_history (filtered_history df_current_min : List Row) : List Row :=
  sort_by_timestamp_desc (drop_duplicates (df_current_min ++ filtered_history))

/-- `page_size = 20` (screener_app.py). -/
def page_size : ℕ := 20

/-- `paginate` (screener_app.py): `start = (page_num - 1) * page_size`,
`end = start + page_size`, `df.iloc[start:end]`. -/
def paginate (df : List Row) (page_num : ℕ) : List Row :=
  (df.drop ((page_num - 1) * page_size)).take page_size

/-- `datetime.utcnow().minute` for a UTC instant given in milliseconds. -/
def minute_of (ms : ℕ) : ℕ := ms / 60000 % 60

/-- The rollover check of the Start Screener loop (screener_app.py):
`now.minute != last_minute`. -/
def rollover_fires (now_ms : ℕ) (last_minute : ℕ) : Bool :=
  decide (minute_of now_ms ≠ last_minute)

/-- The mutable state of the Start Screener loop: the open current-minute
table, the published current table, the history, and `last_minute`. -/
structure LoopState where
  df_current_min : List Row
  filtered_current : List Row
  filtered_history : List Row
  last_minute : ℕ
deriving DecidableEq, Repr

/-- The rollover body (screener_app.py): when the wall-clock minute changed,
set `last_minute`, publish `df_current_min` sorted by timestamp descending as
`filtered_current`, merge it into `filtered_history`, and reset
`df_current_min` to an empty table. -/
def rollover_step (st : LoopState) (now_ms : ℕ) : LoopState :=
  if minute_of now_ms ≠ st.last_minute then
    { df_current_min := []
      filtered_current := sort_by_timestamp_desc st.df_current_min
      filtered_history := append_history st.filtered_history st.df_current_min
      last_minute := minute_of now_ms }
  else st

/-! ## C1: the volume-multiple rule -/

/-- **C1.** The volume-multiple rule with multiplier `m` matches exactly when a
baseline exists in the dictionary, is strictly positive, and the snapshot
volume strictly exceeds `m` times the baseline; an absent or zero baseline
never matches, for any snapshot volume.  The same holds for the polling
variant's `volume_condition`. -/
theorem volume_rule_matches_iff (d : List (String × ℚ)) (m : ℚ) (info : Row)
    (vol avg : ℚ) :
    (passes_filter (.volumeBased m) d info = true ↔
      ∃ b, d.lookup info.symbol = some b ∧ 0 < b ∧ m * b < info.volume) ∧
    ((d.lookup info.symbol = none ∨ d.lookup info.symbol = some 0) →
      passes_filter (.volumeBased m) d info = false) ∧
    (volume_condition vol avg m = true ↔ 0 < avg ∧ m * avg < vol) ∧
    (volume_condition vol 0 m = false) := by
  refine ⟨?_, ?_, ?_, ?_⟩
  · cases h : d.lookup info.symbol with
    | none => simp [passes_filter, dict_get, h]
    | some b => simp [passes_filter, dict_get, h]
  · rintro (h | h) <;> simp [passes_filter, dict_get, h]
  · simp [volume_condition, and_comm]
  · simp [volume_condition]

/-- Witness for C1 at the spec's example numbers: with baseline 100 and
multiplier 10, volume 1500 matches; with an absent baseline, volume 1500
never matches. -/
theorem volume_rule_matches_iff_witness :
    passes_filter (.volumeBased 10) [("BTCUSDT", 100)]
      { symbol := "BTCUSDT", volume := 1500, value_in_inr := 0, timestamp := 0 } = true ∧
    passes_filter (.volumeBased 10) []
      { symbol := "BTCUSDT", volume := 1500, value_in_inr := 0, timestamp := 0 } = false := by
  constructor
  · exact (volume_rule_matches_iff [("BTCUSDT", 100)] 10
      { symbol := "BTCUSDT", volume := 1500, value_in_inr := 0, timestamp := 0 } 0 0).1.mpr
      ⟨100, rfl, by norm_num, by norm_num⟩
  · exact (volume_rule_matches_iff [] 10
      { symbol := "BTCUSDT", volume := 1500, value_in_inr := 0, timestamp := 0 } 0 0).2.1
      (Or.inl rfl)

/-! ## C9: the value-threshold rule -/

/-- **C9.** The value-threshold rule matches exactly when the trade's notional
value times the currency rate strictly exceeds the configured threshold
(`min_value_inr * 1e7` in the streaming variant, `value_threshold` in the
polling variant). -/
theorem value_rule_matches_iff (min_value_inr inr_rate : ℚ)
    (d : List (String × ℚ)) (t : Trade) (val threshold : ℚ) :
    (passes_filter (.valueBased min_value_inr) d (process_trade_data t inr_rate) = true ↔
      min_value_inr * 10000000 < t.q * t.p * inr_rate) ∧
    (value_condition val threshold = true ↔ threshold < val) := by
  constructor
  · simp [passes_filter, process_trade_data]
  · simp [value_condition]

/-- Witness for C9 at the spec's example numbers: threshold 40,000,000 INR
(`min_value_inr = 4` crore), rate 83, notional value 500,000 USD; the product
41,500,000 exceeds the threshold, so the trade matches. -/
theorem value_rule_matches_iff_witness :
    passes_filter (.valueBased 4) []
      (process_trade_data ⟨"BTCUSDT", 1, 500000, 0⟩ 83) = true :=
  (value_rule_matches_iff 4 83 [] ⟨"BTCUSDT", 1, 500000, 0⟩ 0 0).1.mpr (by norm_num)

/-! ## C3: window placement -/

/-- **C3 counterexample.** The polling variant's window at query time 90000 ms
(one and a half minutes past the epoch minute) is `[30000, 90000)`, whose start
is not a multiple of 60000 ms: the window slides from the query time instead of
being aligned to the UTC wall-clock minute boundary. -/
theorem window_not_aligned_at_90000 :
    fetch_1min_window 90000 = (30000, 90000) ∧ ¬ ((30000 : ℤ) % 60000 = 0) := by
  exact ⟨rfl, by decide⟩

/-- **C3 amended.** The polling variant's aggregation window is the 60-second
interval ending at the query time, sliding with the query time; in the
streaming variant, the rollover fires exactly when the UTC wall-clock minute
number differs from `last_minute`, resetting the current table and recording
the new minute. -/
theorem window_slides_from_query_time (t : ℤ) (st : LoopState) (now : ℕ) :
    fetch_1min_window t = (t - 60000, t) ∧
    (fetch_1min_window t).2 - (fetch_1min_window t).1 = 60000 ∧
    (minute_of now ≠ st.last_minute →
      (rollover_step st now).df_current_min = [] ∧
      (rollover_step st now).last_minute = minute_of now) ∧
    (minute_of now = st.last_minute → rollover_step st now = st) := by
  refine ⟨rfl, by simp [fetch_1min_window], ?_, ?_⟩
  · intro h
    simp [rollover_step, h]
  · intro h
    simp [rollover_step, h]

/-- Witness for the amended C3: at query time 90000 the window is
`(30000, 90000)`, and a rollover at 60000 ms (minute 1) from `last_minute = 0`
clears the current table. -/
theorem window_slides_from_query_time_witness :
    fetch_1min_window 90000 = (30000, 90000) ∧
    (rollover_step ⟨[], [], [], 0⟩ 60000).df_current_min = [] := by
  refine ⟨(window_slides_from_query_time 90000 ⟨[], [], [], 0⟩ 60000).1, ?_⟩
  exact ((window_slides_from_query_time 90000 ⟨[], [], [], 0⟩ 60000).2.2.1
    (by decide)).1

/-! ## C7: the baseline average -/

/-- **C7 counterexample.** The streaming variant's baseline divides by the
number of fetched bars, not by lookback-minutes: with a single fetched bar of
volume 2 it returns 2, whereas total volume over a 5-day lookback divided by
5 × 1440 minutes would be 2/7200. -/
theorem avg_vol_divides_by_bar_count :
    fetch_5day_1min_avg_vol (some [2]) = some 2 ∧ (2 : ℚ) ≠ 2 / (5 * 1440) := by
  constructor
  · norm_num [fetch_5day_1min_avg_vol]
  · norm_num

/-- **C7 amended.** The polling variant's baseline is the total fetched volume
divided by `days * 1440`; the streaming variant's baseline is the arithmetic
mean of the fetched bar volumes (total divided by the number of bars). -/
theorem baseline_average_formulas (trades : List AggTrade) (days : ℕ)
    (volumes : List ℚ) (hd : 0 < days) (hv : volumes ≠ []) :
    calculate_average_volume trades days * (days * 1440) =
      (trades.map (fun t => t.q)).sum ∧
    fetch_5day_1min_avg_vol (some volumes) = some (volumes.sum / volumes.length) ∧
    volumes.sum / volumes.length * volumes.length = volumes.sum := by
  refine ⟨?_, ?_, ?_⟩
  · rw [calculate_average_volume, div_mul_cancel₀]
    positivity
  · simp [fetch_5day_1min_avg_vol, List.isEmpty_iff, hv]
  · rw [div_mul_cancel₀]
    exact Nat.cast_ne_zero.mpr (List.length_pos.mpr hv).ne'

/-- Witness for the amended C7: one trade of quantity 2 over a 5-day lookback
gives `2 / 7200 * 7200 = 2` in the polling variant, and one bar of volume 2
gives baseline 2 in the streaming variant. -/
theorem baseline_average_formulas_witness :
    calculate_average_volume [⟨1, 2⟩] 5 * (5 * 1440) = 2 ∧
    fetch_5day_1min_avg_vol (some [2]) = some (2 / 1) := by
  have h := baseline_average_formulas [⟨1, 2⟩] 5 [2] (by norm_num) (by simp)
  refine ⟨?_, ?_⟩
  · simpa using h.1
  · simpa using h.2.1

/-! ## C8: the "no data" indicator -/

/-- **C8 counterexample.** With zero fetched bars the baseline computation
returns `0`, not a "no data" indicator; and at the point where `avg_vol_dict`
is populated, the `None` indicator is mapped to `0`, so it is indistinguishable
there from a legitimately-zero average. -/
theorem no_data_collapses_to_zero :
    fetch_5day_1min_avg_vol (some []) = some 0 ∧
    avg_vol_dict_entry (fetch_5day_1min_avg_vol none) =
      avg_vol_dict_entry (fetch_5day_1min_avg_vol (some [])) := by
  exact ⟨rfl, rfl⟩

/-- **C8 amended.** The baseline fetch returns `None` only on a failed fetch
and returns `0` for an empty bar list; populating `avg_vol_dict` maps `None`
to `0`, so no-data and zero-average coincide at the consumption point — and
either value suppresses volume-rule matches, since the rule requires a
strictly positive baseline. -/
theorem no_data_zero_equivalent (m : ℚ) (d : List (String × ℚ)) (info : Row)
    (h : dict_get d info.symbol = 0) :
    fetch_5day_1min_avg_vol (some []) = some 0 ∧
    avg_vol_dict_entry none = 0 ∧
    avg_vol_dict_entry (some 0) = 0 ∧
    passes_filter (.volumeBased m) d info = false := by
  refine ⟨rfl, rfl, rfl, ?_⟩
  simp [passes_filter, h]

/-- Witness for the amended C8: with an empty dictionary the looked-up
baseline is 0 and the volume rule rejects the row. -/
theorem no_data_zero_equivalent_witness :
    passes_filter (.volumeBased 10) []
      { symbol := "BTCUSDT", volume := 1500, value_in_inr := 0, timestamp := 0 } = false :=
  (no_data_zero_equivalent 10 []
    { symbol := "BTCUSDT", volume := 1500, value_in_inr := 0, timestamp := 0 } rfl).2.2.2

/-! ## C2: window snapshot totals -/

/-- **C2 counterexample.** The streaming variant does not sum at all: two
matching trades of quantity 1 for the same symbol leave a single row of volume
1 (the latest trade), not 2; and the polling variant's value is not the sum of
price × quantity — for a single trade of price 2 and quantity 3 it is
`2 * 3 * 83 = 498`, not 6. -/
theorem snapshot_totals_not_sums :
    (process_trades (.valueBased 1) [] 83 []
        [⟨"BTCUSDT", 1, 200000, 0⟩, ⟨"BTCUSDT", 1, 300000, 1000⟩]).map
      (fun r => r.volume) = [1] ∧
    (1 : ℚ) ≠ 1 + 1 ∧
    (fetch_1min_volume [⟨2, 3⟩]).2 = 498 ∧ (498 : ℚ) ≠ 2 * 3 := by
  refine ⟨?_, by norm_num, ?_, by norm_num⟩
  · norm_num [process_trades, step_trade, passes_filter, process_trade_data,
      update_current_min]
  · norm_num [fetch_1min_volume, INR_CONVERSION_RATE]

/-- **C2 amended.** For the polling variant's per-window aggregation
(`fetch_1min_volume`), the snapshot's volume equals the sum of the event
quantities, its value equals the INR conversion rate times the sum of
price × quantity, and the result is invariant under permutation of the
arrival order. -/
theorem fetch_1min_volume_sums (l l' : List AggTrade) (h : l.Perm l') :
    (fetch_1min_volume l).1 = (l.map (fun t => t.q)).sum ∧
    (fetch_1min_volume l).2 =
      INR_CONVERSION_RATE * (l.map (fun t => t.p * t.q)).sum ∧
    fetch_1min_volume l = fetch_1min_volume l' := by
  refine ⟨rfl, ?_, ?_⟩
  · show (l.map (fun t => t.p * t.q * INR_CONVERSION_RATE)).sum = _
    rw [List.sum_map_mul_right, mul_comm]
  · unfold fetch_1min_volume
    exact Prod.ext ((h.map _).sum_eq) ((h.map _).sum_eq)

/-- Witness for the amended C2 on a concrete two-trade window and its
transposition. -/
theorem fetch_1min_volume_sums_witness :
    fetch_1min_volume [⟨2, 3⟩, ⟨5, 7⟩] = fetch_1min_volume [⟨5, 7⟩, ⟨2, 3⟩] ∧
    (fetch_1min_volume [⟨2, 3⟩, ⟨5, 7⟩]).1 = 10 := by
  refine ⟨(fetch_1min_volume_sums [⟨2, 3⟩, ⟨5, 7⟩] [⟨5, 7⟩, ⟨2, 3⟩]
    (List.Perm.swap _ _ [])).2.2, ?_⟩
  rw [(fetch_1min_volume_sums [⟨2, 3⟩, ⟨5, 7⟩] [⟨5, 7⟩, ⟨2, 3⟩]
    (List.Perm.swap _ _ [])).1]
  norm_num

/-! ## C4: window assignment of events -/

/-- **C4 counterexample.** A matching trade with event time 120000 ms — at or
after the next window's start (60000 ms) — processed before the rollover fires
does end up in the snapshot published at the rollover; and a matching trade
whose event time 0 lies in an already-closed window is merged into the new
current table rather than dropped. -/
theorem late_event_leaks_into_closing_window :
    (rollover_step
        ⟨process_trades (.valueBased 1) [] 83 [] [⟨"BTCUSDT", 1, 200000, 120000⟩],
          [], [], 0⟩ 60000).filtered_current =
      [{ symbol := "BTCUSDT", volume := 1, value_in_inr := 16600000,
         timestamp := 120000 }] ∧
    (120000 : ℤ) ≥ 60000 ∧
    process_trades (.valueBased 1) [] 83 [] [⟨"ETHUSDT", 1, 200000, 0⟩] =
      [{ symbol := "ETHUSDT", volume := 1, value_in_inr := 16600000,
         timestamp := 0 }] := by
  refine ⟨?_, by decide, ?_⟩
  · norm_num [rollover_step, minute_of, sort_by_timestamp_desc, process_trades,
      step_trade, passes_filter, process_trade_data, update_current_min,
      List.mergeSort]
  · norm_num [process_trades, step_trade, passes_filter, process_trade_data,
      update_current_min]

/-- **C4 amended.** The streaming loop assigns trades to windows by processing
time, not by event time: the filter outcome is independent of the trade's
event time, a matching trade processed before the rollover appears in the
snapshot published by that rollover whatever its event time, and a matching
trade is always merged into the current table (so late events for closed
windows are never dropped). -/
theorem events_assigned_by_processing_time
    (cond : Condition) (d : List (String × ℚ)) (rate : ℚ) (df fc fh : List Row)
    (t : Trade) (T' : ℤ) (lm now : ℕ)
    (hpass : passes_filter cond d (process_trade_data t rate) = true)
    (hroll : minute_of now ≠ lm) :
    passes_filter cond d (process_trade_data { t with T := T' } rate) =
      passes_filter cond d (process_trade_data t rate) ∧
    process_trade_data t rate ∈
      (rollover_step ⟨process_trades cond d rate df [t], fc, fh, lm⟩ now).filtered_current ∧
    process_trade_data t rate ∈ process_trades cond d rate df [t] := by
  have hmem : process_trade_data t rate ∈ process_trades cond d rate df [t] := by
    show process_trade_data t rate ∈ step_trade cond d rate df t
    unfold step_trade
    rw [if_pos hpass]
    exact List.mem_append_right _ (List.mem_singleton_self _)
  refine ⟨?_, ?_, hmem⟩
  · cases cond <;> simp [passes_filter, process_trade_data]
  · show process_trade_data t rate ∈
      (rollover_step ⟨process_trades cond d rate df [t], fc, fh, lm⟩ now).filtered_current
    unfold rollover_step
    rw [if_pos hroll]
    exact ((List.mergeSort_perm _ _).mem_iff).mpr hmem

/-- Witness for the amended C4 at the counterexample's inputs. -/
theorem events_assigned_by_processing_time_witness :
    process_trade_data ⟨"BTCUSDT", 1, 200000, 120000⟩ 83 ∈
      (rollover_step
        ⟨process_trades (.valueBased 1) [] 83 [] [⟨"BTCUSDT", 1, 200000, 120000⟩],
          [], [], 0⟩ 60000).filtered_current :=
  (events_assigned_by_processing_time (.valueBased 1) [] 83 [] [] []
    ⟨"BTCUSDT", 1, 200000, 120000⟩ 0 0 60000
    (by norm_num [passes_filter, process_trade_data]) (by decide)).2.1

/-! ## C10: one row per symbol in the current table -/

/-- Rows of a table carrying a given symbol. -/
def rows_with_symbol (sym : String) (df : List Row) : List Row :=
  df.filter (fun x => decide (x.symbol = sym))

/-- Specification-side description for the streaming current table: the row
produced by the latest trade in the list that passes the filter and carries
the given symbol, if any. -/
def latest_matching_row (cond : Condition) (d : List (String × ℚ)) (rate : ℚ)
    (sym : String) : List Trade → Option Row
  | [] => none
  | t :: ts =>
    match latest_matching_row cond d rate sym ts with
    | some r => some r
    | none =>
        if passes_filter cond d (process_trade_data t rate) = true ∧
            (process_trade_data t rate).symbol = sym then
          some (process_trade_data t rate)
        else none

lemma rows_with_symbol_update (df : List Row) (r : Row) (sym : String) :
    rows_with_symbol sym (update_current_min df r) =
      if r.symbol = sym then [r] else rows_with_symbol sym df := by
  unfold rows_with_symbol update_current_min
  rw [List.filter_append, List.filter_filter]
  by_cases h : r.symbol = sym
  · rw [if_pos h]
    have h1 : List.filter
        (fun a => decide (a.symbol = sym) && decide (a.symbol ≠ r.symbol)) df = [] := by
      apply List.filter_eq_nil_iff.mpr
      intro a _
      simp only [Bool.and_eq_true, decide_eq_true_eq, not_and]
      intro heq hne
      exact hne (heq.trans h.symm)
    rw [h1]
    simp [h]
  · rw [if_neg h]
    have h1 : List.filter
        (fun a => decide (a.symbol = sym) && decide (a.symbol ≠ r.symbol)) df =
          List.filter (fun a => decide (a.symbol = sym)) df := by
      apply List.filter_congr
      intro a _
      by_cases ha : a.symbol = sym
      · have hne : ¬ sym = r.symbol := fun hh => h hh.symm
        simp [ha, hne]
      · simp [ha]
    rw [h1]
    simp [h]

lemma rows_with_symbol_process_trades (cond : Condition)
    (d : List (String × ℚ)) (rate : ℚ) (sym : String) (trades : List Trade) :
    ∀ df : List Row,
      rows_with_symbol sym (process_trades cond d rate df trades) =
        (latest_matching_row cond d rate sym trades).elim
          (rows_with_symbol sym df) (fun r => [r]) := by
  induction trades with
  | nil => intro df; rfl
  | cons t ts ih =>
      intro df
      have hstep : process_trades cond d rate df (t :: ts) =
          process_trades cond d rate (step_trade cond d rate df t) ts := rfl
      rw [hstep, ih]
      cases hlast : latest_matching_row cond d rate sym ts with
      | some r => simp [latest_matching_row, hlast]
      | none =>
          simp only [latest_matching_row, hlast]
          unfold step_trade
          by_cases hp : passes_filter cond d (process_trade_data t rate) = true
          · rw [if_pos hp, rows_with_symbol_update]
            by_cases hs : (process_trade_data t rate).symbol = sym
            · simp [hp, hs]
            · simp [hp, hs]
          · rw [if_neg hp]
            simp [hp]

lemma nodup_symbols_update (df : List Row) (r : Row)
    (h : (df.map (fun x => x.symbol)).Nodup) :
    ((update_current_min df r).map (fun x => x.symbol)).Nodup := by
  unfold update_current_min
  rw [List.map_append, List.nodup_append]
  refine ⟨((List.filter_sublist df).map _).nodup h, by simp, ?_⟩
  intro a ha hb
  simp only [List.map_cons, List.map_nil, List.mem_singleton] at hb
  simp only [List.mem_map, List.mem_filter, decide_eq_true_eq] at ha
  obtain ⟨x, ⟨_, hx⟩, rfl⟩ := ha
  exact hx hb

lemma nodup_symbols_process (cond : Condition) (d : List (String × ℚ))
    (rate : ℚ) (trades : List Trade) :
    ∀ df : List Row, (df.map (fun x => x.symbol)).Nodup →
      ((process_trades cond d rate df trades).map (fun x => x.symbol)).Nodup := by
  induction trades with
  | nil => intro df h; exact h
  | cons t ts ih =>
      intro df h
      refine ih (step_trade cond d rate df t) ?_
      unfold step_trade
      by_cases hp : passes_filter cond d (process_trade_data t rate) = true
      · rw [if_pos hp]
        exact nodup_symbols_update df _ h
      · rw [if_neg hp]
        exact h

/-- **C10.** Starting from an empty current-window table, after processing any
sequence of trades the table's symbols are pairwise distinct (at most one row
per instrument), and for every symbol the table's rows with that symbol are
exactly the row of that symbol's latest matching trade — a replacement, not an
accumulation. -/
theorem current_table_one_row_per_symbol (cond : Condition)
    (d : List (String × ℚ)) (rate : ℚ) (trades : List Trade) :
    ((process_trades cond d rate [] trades).map (fun r => r.symbol)).Nodup ∧
    ∀ sym, rows_with_symbol sym (process_trades cond d rate [] trades) =
      (latest_matching_row cond d rate sym trades).toList := by
  constructor
  · exact nodup_symbols_process cond d rate trades [] (by simp)
  · intro sym
    rw [rows_with_symbol_process_trades]
    cases latest_matching_row cond d rate sym trades <;> simp [rows_with_symbol]

/-! ## C5: history deduplication -/

/-- A row of the polling variant's volume-condition result frame
(app.py `screen_pairs`): columns Symbol, Volume, Avg Volume, Time.  The
minute-resolution `Time` string is modelled as the integer minute it names. -/
structure VolRow where
  sym : String
  volume : ℚ
  avg_volume : ℚ
  time : ℤ
deriving DecidableEq, Repr

/-- `st.session_state.volume_history.append(vol_df)` (app.py): the history is
a plain Python list of result frames and the frame is appended as-is, with no
deduplication (the `value_history` append is identical in shape). -/
def volume_history_append (history : List (List VolRow)) (vol_df : List VolRow) :
    List (List VolRow) :=
  history ++ [vol_df]

/-- All records of the polling variant's history carrying a given
`(Symbol, Time)` key, across all appended frames. -/
def vol_records_with_key (k : String × ℤ) (history : List (List VolRow)) :
    List VolRow :=
  history.flatten.filter (fun r => decide ((r.sym, r.time) = k))

/-- Records of a table carrying a given `(symbol, timestamp)` key. -/
def records_with_key (k : String × ℤ) (l : List Row) : List Row :=
  l.filter (fun r => decide (row_key r = k))

lemma records_with_key_filter_ne_eq_nil (k : String × ℤ) (r : Row)
    (rs : List Row) (hk : row_key r = k) :
    records_with_key k (rs.filter (fun x => decide (row_key x ≠ row_key r))) = [] := by
  unfold records_with_key
  rw [List.filter_filter]
  apply List.filter_eq_nil_iff.mpr
  intro a _
  simp only [Bool.and_eq_true, decide_eq_true_eq, not_and]
  intro heq hne
  exact hne (heq.trans hk.symm)

lemma records_with_key_filter_ne_eq_self (k : String × ℤ) (r : Row)
    (rs : List Row) (hk : ¬ row_key r = k) :
    records_with_key k (rs.filter (fun x => decide (row_key x ≠ row_key r))) =
      records_with_key k rs := by
  unfold records_with_key
  rw [List.filter_filter]
  apply List.filter_congr
  intro a _
  by_cases ha : row_key a = k
  · have hne : ¬ k = row_key r := fun hh => hk hh.symm
    simp [ha, hne]
  · simp [ha]

lemma records_with_key_cons (k : String × ℤ) (r : Row) (l : List Row) :
    records_with_key k (r :: l) =
      if row_key r = k then r :: records_with_key k l
      else records_with_key k l := by
  by_cases h : row_key r = k <;> simp [records_with_key, List.filter_cons, h]

lemma records_with_key_drop_duplicates (k : String × ℤ) (l : List Row) :
    records_with_key k (drop_duplicates l) = (records_with_key k l).take 1 := by
  induction l using drop_duplicates.induct with
  | case1 =>
      rw [drop_duplicates]
      rfl
  | case2 r rs ih =>
      rw [drop_duplicates, records_with_key_cons, records_with_key_cons]
      by_cases hk : row_key r = k
      · rw [if_pos hk, if_pos hk, ih, records_with_key_filter_ne_eq_nil k r rs hk]
        simp
      · rw [if_neg hk, if_neg hk, ih, records_with_key_filter_ne_eq_self k r rs hk]

lemma perm_eq_of_length_le_one {α : Type} {l₁ l₂ : List α}
    (h : l₁.Perm l₂) (hl : l₂.length ≤ 1) : l₁ = l₂ := by
  cases l₂ with
  | nil => exact h.eq_nil
  | cons a t =>
      cases t with
      | nil => exact List.perm_singleton.mp h
      | cons b t2 => simp at hl

lemma records_with_key_append_history (hist cur : List Row) (k : String × ℤ) :
    records_with_key k (append_history hist cur) =
      (records_with_key k (cur ++ hist)).take 1 := by
  have hperm : (records_with_key k (append_history hist cur)).Perm
      (records_with_key k (drop_duplicates (cur ++ hist))) :=
    (List.mergeSort_perm _ _).filter _
  have hlen : (records_with_key k (drop_duplicates (cur ++ hist))).length ≤ 1 := by
    rw [records_with_key_drop_duplicates]
    exact List.length_take_le 1 _
  rw [perm_eq_of_length_le_one hperm hlen, records_with_key_drop_duplicates]

/-- **C5 counterexample.** The polling variant's history append
(app.py `volume_history.append`) performs no deduplication: appending the same
one-row frame twice, with the same `(Symbol, Time)` key, leaves two records
with that key in the history, not one. -/
theorem volume_history_append_not_idempotent :
    (vol_records_with_key ("BTCUSDT", 0)
      (volume_history_append
        (volume_history_append [] [⟨"BTCUSDT", 5, 1, 0⟩])
        [⟨"BTCUSDT", 5, 1, 0⟩])).length = 2 ∧
    (2 : ℕ) ≠ 1 := by
  constructor
  · rfl
  · decide

/-- **C5 amended.** For the streaming variant's `filtered_history` — the
deduplicated history store — after every append at most one record per
`(symbol, timestamp)` key remains; if the appended table carries a record for
a key, the resulting history's record for that key is exactly that (newest)
record; and appending the same table twice leaves, for every key, the same
records as appending it once.  The polling variant's `volume_history`, by
contrast, is a plain list append with no deduplication. -/
theorem history_append_idempotent_dedup (hist cur : List Row) :
    (∀ k, (records_with_key k (append_history hist cur)).length ≤ 1) ∧
    (∀ k r rest, records_with_key k cur = r :: rest →
      records_with_key k (append_history hist cur) = [r]) ∧
    (∀ k, records_with_key k (append_history (append_history hist cur) cur) =
      records_with_key k (append_history hist cur)) := by
  have hsplit : ∀ k (l₁ l₂ : List Row),
      records_with_key k (l₁ ++ l₂) = records_with_key k l₁ ++ records_with_key k l₂ := by
    intro k l₁ l₂
    simp [records_with_key]
  refine ⟨?_, ?_, ?_⟩
  · intro k
    rw [records_with_key_append_history]
    exact List.length_take_le 1 _
  · intro k r rest hcur
    rw [records_with_key_append_history, hsplit, hcur]
    rfl
  · intro k
    rw [records_with_key_append_history, records_with_key_append_history,
      hsplit, hsplit]
    cases hcur : records_with_key k cur with
    | nil =>
        rw [List.nil_append, List.nil_append, records_with_key_append_history,
          hsplit, hcur, List.nil_append, List.take_take]
        norm_num
    | cons r rest =>
        rw [List.cons_append, List.cons_append, List.take_succ_cons,
          List.take_succ_cons, List.take_zero, List.take_zero]

/-- Witness for C5: appending a one-row table to an empty history leaves
exactly that record for its key. -/
theorem history_append_idempotent_dedup_witness :
    records_with_key ("BTCUSDT", 0)
      (append_history [] [⟨"BTCUSDT", 1, 2, 0⟩]) = [⟨"BTCUSDT", 1, 2, 0⟩] :=
  (history_append_idempotent_dedup [] [⟨"BTCUSDT", 1, 2, 0⟩]).2.1
    ("BTCUSDT", 0) _ [] (by simp [records_with_key, row_key])

/-! ## C6: pagination -/

/-- The most-recent-first ordering on rows: timestamps are non-increasing. -/
def byRecency (a b : Row) : Prop := b.timestamp ≤ a.timestamp

lemma sorted_append_history (hist cur : List Row) :
    (append_history hist cur).Pairwise byRecency := by
  have htrans : ∀ a b c : Row,
      decide (b.timestamp ≤ a.timestamp) →
      decide (c.timestamp ≤ b.timestamp) →
      decide (c.timestamp ≤ a.timestamp) := by
    intro a b c hab hbc
    simp only [decide_eq_true_eq] at *
    exact le_trans hbc hab
  have htotal : ∀ a b : Row,
      decide (b.timestamp ≤ a.timestamp) || decide (a.timestamp ≤ b.timestamp) := by
    intro a b
    simpa using le_total b.timestamp a.timestamp
  have h := List.sorted_mergeSort htrans htotal
    (drop_duplicates (cur ++ hist))
  exact h.imp (fun hab => by simpa [byRecency] using hab)

/-- **C6.** For every collection and every page number ≥ 1 with page size 20:
the returned page has at most `page_size` records; it preserves the
most-recent-first order of the collection (which the history append
establishes by sorting on timestamp descending); and a page past the end of
the collection is the empty page — bounds clamp instead of wrapping or
raising. -/
theorem paginate_spec (df hist cur : List Row) (page : ℕ) (hpage : 1 ≤ page) :
    (paginate df page).length ≤ page_size ∧
    (df.Pairwise byRecency → (paginate df page).Pairwise byRecency) ∧
    (df.length ≤ (page - 1) * page_size → paginate df page = []) ∧
    (append_history hist cur).Pairwise byRecency := by
  refine ⟨?_, ?_, ?_, sorted_append_history hist cur⟩
  · exact List.length_take_le _ _
  · intro hsorted
    exact hsorted.sublist ((List.take_sublist _ _).trans (List.drop_sublist _ _))
  · intro hlen
    unfold paginate
    rw [List.drop_eq_nil_of_le hlen]
    rfl

/-- Witness for C6: requesting page 3 of a one-row collection returns the
empty page, and a page never exceeds 20 records. -/
theorem paginate_spec_witness :
    paginate [⟨"BTCUSDT", 1, 2, 0⟩] 3 = [] ∧
    (paginate [⟨"BTCUSDT", 1, 2, 0⟩] 1).length ≤ 20 := by
  constructor
  · exact (paginate_spec [⟨"BTCUSDT", 1, 2, 0⟩] [] [] 3 (by norm_num)).2.2.1
      (by norm_num [page_size])
  · exact (paginate_spec [⟨"BTCUSDT", 1, 2, 0⟩] [] [] 1 (by norm_num)).1

end Screener
